import Mathlib

/-!
Shallow embedding of the scrape worker (`src/worker.py`) and proofs of the
specification claims about it.

The worker repeatedly polls a coordinator for a batch of submission ids,
fetches and parses each id's page concurrently, and reports the parsed
records and the not-found ids back.  The embedding models:

* `clean_int` / `clean_float` — the regex scrapers `re.search(r"\d+", s)`
  and `re.search(r"\d+(?:\.\d+)?", s)` as explicit character scanners over
  `String.data`; Python `float` is modelled by `ℚ` (every value produced
  here is a finite decimal).
* the HTML document as the record of query results that `fetch_one` asks
  BeautifulSoup for (text fields hold the already-stripped `get_text`
  results); network input as `HttpResult` — either a transport exception
  or a status code plus parsed document.
* `fetch_one`, the batch collection loop of `main`, and `safe_request`
  (the retry-forever transport wrapper, with fuel for the unbounded loop
  and an explicit attempt oracle).
-/

namespace Worker

/-- `int(m.group(0))` on a digit run: value of a list of decimal digits. -/
def digitsToNat (ds : List Char) : Nat :=
  ds.foldl (fun a c => 10 * a + (c.toNat - 48)) 0

/-- First match of `\d+`: scan to the first digit, take the maximal digit
run from there (regex leftmost, greedy). `none` when no digit occurs. -/
def findIntToken : List Char → Option (List Char)
  | [] => none
  | c :: cs =>
    if c.isDigit then some (c :: cs.takeWhile Char.isDigit)
    else findIntToken cs

/-- First match of `\d+(?:\.\d+)?`: integer-part digit run, plus the
fractional digit run when a dot followed by a digit comes right after. -/
def findFloatToken : List Char → Option (List Char × List Char)
  | [] => none
  | c :: cs =>
    if c.isDigit then
      let ip := c :: cs.takeWhile Char.isDigit
      let r := cs.dropWhile Char.isDigit
      match r with
      | '.' :: r2 =>
        match r2 with
        | d :: _ =>
          if d.isDigit then some (ip, r2.takeWhile Char.isDigit)
          else some (ip, [])
        | [] => some (ip, [])
      | _ => some (ip, [])
    else findFloatToken cs

/-- `clean_int`: first `\d+` token as an integer, `0` when absent. -/
def clean_int (s : String) : Int :=
  match findIntToken s.data with
  | some ds => (digitsToNat ds : Int)
  | none => 0

/-- `clean_float`: first `\d+(?:\.\d+)?` token as a rational, `0` when
absent. -/
def clean_float (s : String) : ℚ :=
  match findFloatToken s.data with
  | some (ip, fp) => (digitsToNat ip : ℚ) + (digitsToNat fp : ℚ) / (10 : ℚ) ^ fp.length
  | none => 0

/-- An anchor (`<a>`) element of the metadata row: its stripped text and
its optional `href` attribute.  BeautifulSoup raises `KeyError` on
`tag["href"]` when the attribute is missing, which the embedding renders
as the `Except.error` branch of `linkHref`. -/
structure Link where
  text : String
  href : Option String
deriving DecidableEq

/-- The single metadata row (`table.tbody.tr`) as the results of the
queries `fetch_one` performs on it.  `tspan = some a` means the
`span[data-format=datetime]` element is present and its
`data-timestamp-iso` attribute is `a` (`tspan.get` yields `none` when the
attribute itself is missing). -/
structure Row where
  links : List Link
  tspan : Option (Option String)
  tds : List String
  scoreDiv : Option String
  execSpan : Option String
  memSpan : Option String
deriving DecidableEq

/-- A fetched page as the query results `fetch_one` asks BeautifulSoup
for.  `row` is `some` exactly when `table`, `table.tbody` and
`table.tbody.tr` all exist; `codeDiv` holds `div#submissionCode-0`'s raw
contents; `subtaskSpans` the stripped texts of every
`span.subtask-score` in the whole document. -/
structure Doc where
  codeDiv : Option String
  row : Option Row
  subtaskSpans : List String
deriving DecidableEq

/-- The outcome of the single non-retrying `requests.get` an item fetch
performs: a transport-level exception, or a status code with the
document. -/
inductive HttpResult where
  | exn : HttpResult
  | resp (status : Nat) (doc : Doc) : HttpResult
deriving DecidableEq

/-- The row tuple `fetch_one` returns on success, with named fields.
`ts_iso` is `Option String` because `tspan.get("data-timestamp-iso")`
returns Python `None` when the span is present without the attribute.
The source serialises `subtask_scores` to the string
`"[" + ",".join(...) + "]"` of floating-point reprs; the model keeps the
list of scraped values. -/
structure ParsedRecord where
  id : Int
  ts_iso : Option String
  username : String
  problem_link : String
  language : String
  score : ℚ
  subtask_scores : List ℚ
  execution_time : Int
  memory : Int
  code : String
deriving DecidableEq

/-- The tagged per-item outcome: row tuple, `"NOTFOUND"`, or `None`. -/
inductive FetchOutcome where
  | Found (r : ParsedRecord) : FetchOutcome
  | NotFound : FetchOutcome
  | Dropped : FetchOutcome
deriving DecidableEq

/-- `html.unescape` restricted to the basic named/numeric entities; the
claims never inspect entity semantics, only that the code text defaults
to the empty string. -/
def htmlUnescapeChars : List Char → List Char
  | '&' :: 'a' :: 'm' :: 'p' :: ';' :: rest => '&' :: htmlUnescapeChars rest
  | '&' :: 'l' :: 't' :: ';' :: rest => '<' :: htmlUnescapeChars rest
  | '&' :: 'g' :: 't' :: ';' :: rest => '>' :: htmlUnescapeChars rest
  | '&' :: 'q' :: 'u' :: 'o' :: 't' :: ';' :: rest => Char.ofNat 34 :: htmlUnescapeChars rest
  | '&' :: '#' :: '3' :: '9' :: ';' :: rest => Char.ofNat 39 :: htmlUnescapeChars rest
  | c :: rest => c :: htmlUnescapeChars rest
  | [] => []

def htmlUnescape (s : String) : String :=
  String.mk (htmlUnescapeChars s.data)

/-- `"https://oj.uz" + links[1]["href"] if len(links) >= 2 else ""`:
the second link's href rewritten to an absolute reference; a second link
without an `href` attribute raises (`KeyError`), hence `Except.error`. -/
def linkHref (links : List Link) : Except Unit String :=
  match links[1]? with
  | some l =>
    match l.href with
    | some h => Except.ok ("https://oj.uz" ++ h)
    | none => Except.error ()
  | none => Except.ok ""

/-- The extraction step of `fetch_one` on a 200 document whose metadata
row is present: every other field degrades to an empty/zero default,
except that the problem-link access can raise (propagated here as
`Except.error`, caught by `fetch_one`'s handler). -/
def extractRecord (i : Int) (code : String) (doc : Doc) (row : Row) :
    Except Unit ParsedRecord :=
  match linkHref row.links with
  | Except.error e => Except.error e
  | Except.ok problem_link =>
    Except.ok
      { id := i
        ts_iso :=
          match row.tspan with
          | some attr => attr
          | none => some ""
        username :=
          match row.links[0]? with
          | some l => l.text
          | none => ""
        problem_link := problem_link
        language :=
          match row.tds[4]? with
          | some t => t
          | none => ""
        score :=
          match row.scoreDiv with
          | some t => clean_float t
          | none => 0
        subtask_scores := doc.subtaskSpans.map clean_float
        execution_time := clean_int (row.execSpan.getD "")
        memory := clean_int (row.memSpan.getD "")
        code := code }

/-- `fetch_one`: fetch and parse one submission page.  The URL
resolution (`BASE.format(i)`) is abstracted into the `net` oracle, the
result of the single `requests.get`.  404 short-circuits to `NotFound`,
any other non-200 status to `Dropped`; on 200 the code block is decoded,
the mandatory metadata row is located (missing row: `Dropped`), and any
exception during extraction is caught and mapped to `Dropped`. -/
def fetch_one (i : Int) (net : HttpResult) : FetchOutcome :=
  match net with
  | HttpResult.exn => FetchOutcome.Dropped
  | HttpResult.resp status doc =>
    if status = 404 then FetchOutcome.NotFound
    else if status ≠ 200 then FetchOutcome.Dropped
    else
      let code :=
        match doc.codeDiv with
        | some c => htmlUnescape c
        | none => ""
      match doc.row with
      | none => FetchOutcome.Dropped
      | some row =>
        match extractRecord i code doc row with
        | Except.ok rec => FetchOutcome.Found rec
        | Except.error _ => FetchOutcome.Dropped

/-- A well-formed HTTP response as `safe_request` sees it: whatever the
status, it is returned to the caller as-is. -/
structure Response where
  status : Nat
  body : String
deriving DecidableEq

/-- The loop body of `safe_request`.  `attempts k` is the outcome of the
`k`-th `requests.request` call (an exception message or a response);
`fuel` bounds the unrolling of the unbounded `while True` loop; `sleeps`
accumulates the `time.sleep(5)` performed before each retry.  Returns
the response, the index of the successful attempt (= number of retries),
and the sleep trace. -/
def safeRequestLoop (attempts : Nat → Except String Response) :
    Nat → Nat → List Nat → Option (Response × Nat × List Nat)
  | 0, _, _ => none
  | fuel + 1, k, sleeps =>
    match attempts k with
    | Except.ok r => some (r, k, sleeps)
    | Except.error _ => safeRequestLoop attempts fuel (k + 1) (sleeps ++ [5])

/-- `safe_request`: retry forever (here: up to `fuel` attempts) on any
transport exception, sleeping the fixed 5-unit delay before each retry;
a well-formed response is returned immediately, its status uninspected. -/
def safe_request (attempts : Nat → Except String Response) (fuel : Nat) :
    Option (Response × Nat × List Nat) :=
  safeRequestLoop attempts fuel 0 []

/-- One step of the collection loop in `main`: `row == "NOTFOUND"`
appends the id to `notfound`, a row tuple (always truthy) appends it to
`results`, `None` is dropped. -/
def collectStep (env : Int → HttpResult)
    (acc : List ParsedRecord × List Int) (i : Int) :
    List ParsedRecord × List Int :=
  match fetch_one i (env i) with
  | FetchOutcome.Found r => (acc.1 ++ [r], acc.2)
  | FetchOutcome.NotFound => (acc.1, acc.2 ++ [i])
  | FetchOutcome.Dropped => acc

/-- The concurrent batch processor of `main`: one `fetch_one` per id on
the pool, outcomes collected in completion order.  `env i` is the HTTP
outcome of id `i`'s single fetch; `order` is the `as_completed`
completion order, an arbitrary permutation of the dispatched batch. -/
def processBatch (env : Int → HttpResult) (order : List Int) :
    List ParsedRecord × List Int :=
  order.foldl (collectStep env) ([], [])

/-- The decode step of `r.json().get("ids", [])` on the poll response:
either the body fails to decode, or it yields a (possibly empty) id
list. -/
inductive DecodeResult where
  | fail : DecodeResult
  | ok (ids : List Int) : DecodeResult
deriving DecidableEq

/-- Observable effects of one iteration of the `while True` loop in
`main`: which ids were dispatched to the pool, the payload POSTed to
`/submit_work` (if any), and the `time.sleep` duration taken before the
next poll. -/
structure IterEffects where
  dispatched : List Int
  submitted : Option (List ParsedRecord × List Int)
  sleep : Nat
deriving DecidableEq

/-- One iteration of the orchestrator loop, after the poll request:
undecodable body → sleep 5 and re-poll; empty id list → sleep 5 and
re-poll; otherwise dispatch the batch, collect in completion order
`sched ids`, and submit the report with no extra sleep. -/
def mainIter (env : Int → HttpResult) (sched : List Int → List Int)
    (decoded : DecodeResult) : IterEffects :=
  match decoded with
  | DecodeResult.fail => { dispatched := [], submitted := none, sleep := 5 }
  | DecodeResult.ok ids =>
    if ids.isEmpty then { dispatched := [], submitted := none, sleep := 5 }
    else
      { dispatched := ids
        submitted := some (processBatch env (sched ids))
        sleep := 0 }

/-- `foundRecord o` is the record carried by a `Found` outcome. -/
def foundRecord : FetchOutcome → Option ParsedRecord
  | FetchOutcome.Found r => some r
  | _ => none

def isFound : FetchOutcome → Bool
  | FetchOutcome.Found _ => true
  | _ => false

def isNotFound : FetchOutcome → Bool
  | FetchOutcome.NotFound => true
  | _ => false

def isDropped : FetchOutcome → Bool
  | FetchOutcome.Dropped => true
  | _ => false

/-- A metadata row whose second anchor has no `href` attribute. -/
def hrefRow : Row :=
  { links := [{ text := "alice", href := some "/x" }, { text := "p", href := none }]
    tspan := none
    tds := []
    scoreDiv := none
    execSpan := none
    memSpan := none }

def hrefDoc : Doc :=
  { codeDiv := none, row := some hrefRow, subtaskSpans := [] }

/-- A metadata row whose timestamp span is present but lacks the
`data-timestamp-iso` attribute. -/
def tsRow : Row :=
  { links := []
    tspan := some none
    tds := []
    scoreDiv := none
    execSpan := none
    memSpan := none }

def tsDoc : Doc :=
  { codeDiv := none, row := some tsRow, subtaskSpans := [] }

/-- The record `fetch_one` produces on `tsDoc`. -/
def tsRec : ParsedRecord :=
  { id := 5
    ts_iso := none
    username := ""
    problem_link := ""
    language := ""
    score := 0
    subtask_scores := []
    execution_time := 0
    memory := 0
    code := "" }

/-- A concrete document realising the C8 example row. -/
def exRow : Row :=
  { links := [{ text := "alice", href := none },
              { text := "prob", href := some "/problem/42" }]
    tspan := none
    tds := ["s1", "s2", "s3", "s4", "C++"]
    scoreDiv := some "78.5 pts"
    execSpan := none
    memSpan := none }

def exDoc : Doc := { codeDiv := none, row := some exRow, subtaskSpans := [] }

/-- An environment in which every fetch hits a transport exception. -/
def exnEnv : Int → HttpResult := fun _ => HttpResult.exn

theorem isFound_eq_true_iff (o : FetchOutcome) :
    isFound o = true ↔ ∃ r, o = FetchOutcome.Found r := by
  cases o <;> simp [isFound]

theorem isNotFound_eq_true_iff (o : FetchOutcome) :
    isNotFound o = true ↔ o = FetchOutcome.NotFound := by
  cases o <;> simp [isNotFound]

theorem isDropped_eq_true_iff (o : FetchOutcome) :
    isDropped o = true ↔ o = FetchOutcome.Dropped := by
  cases o <;> simp [isDropped]

theorem outcome_trichotomy (o : FetchOutcome) :
    (isFound o = true ∧ isNotFound o = false ∧ isDropped o = false)
    ∨ (isFound o = false ∧ isNotFound o = true ∧ isDropped o = false)
    ∨ (isFound o = false ∧ isNotFound o = false ∧ isDropped o = true) := by
  cases o <;> simp [isFound, isNotFound, isDropped]

/-- C2: for every identifier and every transport/document input, the
per-item fetch-and-parse function returns normally with exactly one of
the three tagged outcomes (a found record, the not-found marker, or the
dropped marker); the catch-all handler means no exception escapes into
batch aggregation. -/
theorem fetch_one_total_outcomes (i : Int) (net : HttpResult) :
    (∃ r, fetch_one i net = FetchOutcome.Found r)
    ∨ fetch_one i net = FetchOutcome.NotFound
    ∨ fetch_one i net = FetchOutcome.Dropped := by
  cases h : fetch_one i net with
  | Found r => exact Or.inl ⟨r, rfl⟩
  | NotFound => exact Or.inr (Or.inl rfl)
  | Dropped => exact Or.inr (Or.inr rfl)

/-- C4: a 404 response always yields `NotFound`, whatever the document
alongside it — never `Dropped`, never `Found`. -/
theorem fetch_one_404_notfound (i : Int) (d : Doc) :
    fetch_one i (HttpResult.resp 404 d) = FetchOutcome.NotFound := rfl

/-- C9: on an empty decoded batch the orchestrator dispatches no
fetches, submits no report, and sleeps the fixed 5-unit idle backoff
before polling again. -/
theorem empty_batch_idles (env : Int → HttpResult) (sched : List Int → List Int) :
    mainIter env sched (DecodeResult.ok []) =
      { dispatched := [], submitted := none, sleep := 5 } := rfl

/-- C5 (code bug): a 200 response whose metadata row is present but
whose second link lacks an `href` attribute is dropped — the
`links[1]["href"]` access raises `KeyError`, which the catch-all maps to
`Dropped`.  This is a fourth `Dropped` case beyond the three the claim
lists (non-200/404 status, transport exception, missing metadata row),
contradicting the stated design that the missing row is the sole failing
path of extraction. -/
theorem missing_href_drops_item :
    fetch_one 7 (HttpResult.resp 200 hrefDoc) = FetchOutcome.Dropped
    ∧ hrefDoc.row = some hrefRow
    ∧ hrefRow.links[1]? = some { text := "p", href := none } :=
  ⟨rfl, rfl, rfl⟩

/-- C6 (code bug): when the timestamp span exists but its
`data-timestamp-iso` attribute is missing, `tspan.get` returns Python
`None`, so the produced record's timestamp field is an absent value —
not the empty string the claim (and the surrounding defaulting code)
promises. -/
theorem ts_iso_absent_value_bug :
    fetch_one 5 (HttpResult.resp 200 tsDoc) = FetchOutcome.Found tsRec
    ∧ tsRec.ts_iso = none
    ∧ tsDoc.row = some tsRow
    ∧ tsRow.tspan = some none :=
  ⟨rfl, rfl, rfl, rfl⟩

theorem findIntToken_eq_none (l : List Char) (h : ∀ c ∈ l, c.isDigit = false) :
    findIntToken l = none := by
  induction l with
  | nil => rfl
  | cons c cs ih =>
    have hc : c.isDigit = false := h c (List.mem_cons_self c cs)
    simp only [findIntToken, hc]
    exact ih (fun x hx => h x (List.mem_cons_of_mem c hx))

theorem findFloatToken_eq_none (l : List Char) (h : ∀ c ∈ l, c.isDigit = false) :
    findFloatToken l = none := by
  induction l with
  | nil => rfl
  | cons c cs ih =>
    have hc : c.isDigit = false := h c (List.mem_cons_self c cs)
    simp only [findFloatToken, hc]
    exact ih (fun x hx => h x (List.mem_cons_of_mem c hx))

/-- C7: the numeric scraping functions are total, and on text containing
no digit at all they return the zero defaults — never an error. -/
theorem numeric_scrape_default_zero (s : String)
    (h : ∀ c ∈ s.data, c.isDigit = false) :
    clean_int s = 0 ∧ clean_float s = 0 := by
  constructor
  · unfold clean_int
    rw [findIntToken_eq_none s.data h]
  · unfold clean_float
    rw [findFloatToken_eq_none s.data h]

/-- Witness for C7 at the digit-free input `"no digits!"`. -/
theorem numeric_scrape_default_zero_witness :
    (∀ c ∈ ("no digits!").data, c.isDigit = false)
    ∧ clean_int "no digits!" = 0 ∧ clean_float "no digits!" = 0 :=
  ⟨by decide, numeric_scrape_default_zero "no digits!" (by decide)⟩

/-- C10: both scrapers ignore any sign preceding the first digit run, so
their results are always non-negative; in particular `"-5 ms"` scrapes
to `5`, not `-5`. -/
theorem numeric_scrape_nonneg :
    (∀ s : String, 0 ≤ clean_int s)
    ∧ (∀ s : String, 0 ≤ clean_float s)
    ∧ clean_int "-5 ms" = 5
    ∧ clean_float "-5 ms" = 5 := by
  refine ⟨fun s => ?_, fun s => ?_, by decide, ?_⟩
  · unfold clean_int
    cases h : findIntToken s.data with
    | none => simp
    | some ds => simp
  · unfold clean_float
    cases h : findFloatToken s.data with
    | none => simp
    | some t =>
      obtain ⟨ip, fp⟩ := t
      have h1 : (0 : ℚ) ≤ (digitsToNat ip : ℚ) := by positivity
      have h2 : (0 : ℚ) ≤ (digitsToNat fp : ℚ) / (10 : ℚ) ^ fp.length := by positivity
      simpa using add_nonneg h1 h2
  · have h : findFloatToken ("-5 ms".data) = some (['5'], []) := rfl
    have h5 : digitsToNat ['5'] = 5 := rfl
    have h0 : digitsToNat [] = 0 := rfl
    unfold clean_float
    rw [h]
    show (digitsToNat ['5'] : ℚ) + (digitsToNat [] : ℚ) / (10 : ℚ) ^ (List.length ([] : List Char)) = 5
    rw [h5, h0]
    norm_num

theorem safeRequestLoop_spec (attempts : Nat → Except String Response)
    (r : Response) :
    ∀ (N k : Nat) (sleeps : List Nat),
      (∀ m, m < N → ∃ e, attempts (k + m) = Except.error e) →
      attempts (k + N) = Except.ok r →
      safeRequestLoop attempts (N + 1) k sleeps
        = some (r, k + N, sleeps ++ List.replicate N 5) := by
  intro N
  induction N with
  | zero =>
    intro k sleeps _ hok
    simp only [safeRequestLoop]
    rw [show k + 0 = k from rfl] at hok
    rw [hok]
    simp
  | succ N ih =>
    intro k sleeps hfail hok
    obtain ⟨e, he⟩ := hfail 0 (Nat.succ_pos N)
    rw [show k + 0 = k from rfl] at he
    have hstep : safeRequestLoop attempts (N + 1 + 1) k sleeps
        = safeRequestLoop attempts (N + 1) (k + 1) (sleeps ++ [5]) := by
      conv_lhs => rw [safeRequestLoop]
      rw [he]
    rw [hstep]
    have hfail1 : ∀ m, m < N → ∃ e, attempts (k + 1 + m) = Except.error e := by
      intro m hm
      have := hfail (m + 1) (Nat.succ_lt_succ hm)
      rwa [show k + (m + 1) = k + 1 + m by omega] at this
    have hok1 : attempts (k + 1 + N) = Except.ok r := by
      rwa [show k + (N + 1) = k + 1 + N by omega] at hok
    rw [ih (k + 1) (sleeps ++ [5]) hfail1 hok1]
    rw [show k + 1 + N = k + (N + 1) by omega]
    rw [List.append_assoc]
    rfl

/-- C3: if the first `N` transport attempts raise and attempt `N`
returns a well-formed response `r`, `safe_request` returns `r` after
exactly `N` retries, each preceded by one fixed 5-unit sleep — and it
returns `r` as-is whatever `r.status` is, since the loop never inspects
the status (no retry on non-2xx). -/
theorem safe_request_retry_trace (attempts : Nat → Except String Response)
    (r : Response) (N : Nat)
    (hfail : ∀ m, m < N → ∃ e, attempts m = Except.error e)
    (hok : attempts N = Except.ok r) :
    safe_request attempts (N + 1) = some (r, N, List.replicate N 5) := by
  have h := safeRequestLoop_spec attempts r N 0 []
    (by simpa using hfail) (by simpa using hok)
  simpa [safe_request] using h

/-- Witness for C3: one refused attempt, then a well-formed 500 response
— returned after exactly one retry and one 5-unit sleep, its non-2xx
status notwithstanding. -/
theorem safe_request_retry_trace_witness :
    (∀ m, m < 1 →
      ∃ e, (fun n => if n = 0 then (Except.error "refused" : Except String Response)
                     else Except.ok { status := 500, body := "x" }) m = Except.error e)
    ∧ safe_request
        (fun n => if n = 0 then (Except.error "refused" : Except String Response)
                  else Except.ok { status := 500, body := "x" }) 2
      = some ({ status := 500, body := "x" }, 1, [5]) := by
  constructor
  · intro m hm
    have hm0 : m = 0 := by omega
    subst hm0
    exact ⟨"refused", rfl⟩
  · exact safe_request_retry_trace
      (fun n => if n = 0 then (Except.error "refused" : Except String Response)
                else Except.ok { status := 500, body := "x" })
      { status := 500, body := "x" } 1
      (by
        intro m hm
        have hm0 : m = 0 := by omega
        subst hm0
        exact ⟨"refused", rfl⟩)
      rfl

theorem fetch_one_200_row (i : Int) (d : Doc) (row : Row) (hrow : d.row = some row) :
    fetch_one i (HttpResult.resp 200 d)
      = match extractRecord i
            (match d.codeDiv with | some c => htmlUnescape c | none => "") d row with
        | Except.ok rec => FetchOutcome.Found rec
        | Except.error _ => FetchOutcome.Dropped := by
  obtain ⟨cd, dr, ss⟩ := d
  change dr = some row at hrow
  subst hrow
  rfl

/-- C8: a 200 document whose metadata row has author-link text
`"alice"`, second-link href `"/problem/42"`, fifth cell text `"C++"`
and score text `"78.5 pts"` parses to a record with username `"alice"`,
the problem link rewritten to an absolute reference ending in
`"/problem/42"`, language `"C++"`, and score `78.5`. -/
theorem metadata_example_parse (i : Int) (d : Doc) (row : Row)
    (hrow : d.row = some row)
    (h1 : (row.links[0]?).map Link.text = some "alice")
    (h2 : (row.links[1]?).bind Link.href = some "/problem/42")
    (h3 : row.tds[4]? = some "C++")
    (h4 : row.scoreDiv = some "78.5 pts") :
    ∃ r, fetch_one i (HttpResult.resp 200 d) = FetchOutcome.Found r
      ∧ r.username = "alice"
      ∧ r.problem_link = "https://oj.uz/problem/42"
      ∧ (∃ pre, r.problem_link = pre ++ "/problem/42")
      ∧ r.language = "C++"
      ∧ r.score = 78.5 := by
  obtain ⟨l1, hl1, hhref⟩ : ∃ l1, row.links[1]? = some l1 ∧ l1.href = some "/problem/42" := by
    cases hl1 : row.links[1]? with
    | none => rw [hl1] at h2; cases h2
    | some l1 => rw [hl1] at h2; exact ⟨l1, rfl, h2⟩
  obtain ⟨l0, hl0, htext⟩ : ∃ l0, row.links[0]? = some l0 ∧ l0.text = "alice" := by
    cases hl0 : row.links[0]? with
    | none => rw [hl0] at h1; cases h1
    | some l0 =>
      rw [hl0] at h1
      exact ⟨l0, rfl, by simpa using h1⟩
  have hlh : linkHref row.links = Except.ok "https://oj.uz/problem/42" := by
    simp [linkHref, hl1, hhref]
  have hscore : clean_float "78.5 pts" = 78.5 := by
    have h : findFloatToken ("78.5 pts".data) = some (['7', '8'], ['5']) := rfl
    have h78 : digitsToNat ['7', '8'] = 78 := rfl
    have h5 : digitsToNat ['5'] = 5 := rfl
    unfold clean_float
    rw [h]
    show (digitsToNat ['7', '8'] : ℚ)
        + (digitsToNat ['5'] : ℚ) / (10 : ℚ) ^ ([('5' : Char)].length) = 78.5
    rw [h78, h5]
    norm_num
  rw [fetch_one_200_row i d row hrow]
  unfold extractRecord
  rw [hlh]
  refine ⟨_, rfl, ?_, rfl, ⟨"https://oj.uz", rfl⟩, ?_, ?_⟩
  · simp [hl0, htext]
  · simp [h3]
  · simp [h4, hscore]

/-- Witness for C8 at the concrete example document. -/
theorem metadata_example_parse_witness :
    exDoc.row = some exRow
    ∧ (exRow.links[0]?).map Link.text = some "alice"
    ∧ (exRow.links[1]?).bind Link.href = some "/problem/42"
    ∧ exRow.tds[4]? = some "C++"
    ∧ exRow.scoreDiv = some "78.5 pts"
    ∧ (∃ r, fetch_one 42 (HttpResult.resp 200 exDoc) = FetchOutcome.Found r
        ∧ r.username = "alice"
        ∧ r.problem_link = "https://oj.uz/problem/42"
        ∧ (∃ pre, r.problem_link = pre ++ "/problem/42")
        ∧ r.language = "C++"
        ∧ r.score = 78.5) :=
  ⟨rfl, rfl, rfl, rfl, rfl,
    metadata_example_parse 42 exDoc exRow rfl rfl rfl rfl rfl⟩

theorem extract_id (i : Int) (code : String) (doc : Doc) (row : Row)
    (rec : ParsedRecord) (h : extractRecord i code doc row = Except.ok rec) :
    rec.id = i := by
  unfold extractRecord at h
  cases hl : linkHref row.links with
  | error e => rw [hl] at h; cases h
  | ok pl =>
    rw [hl] at h
    injection h with h
    subst h
    rfl

theorem record_id (i : Int) (net : HttpResult) (r : ParsedRecord)
    (h : fetch_one i net = FetchOutcome.Found r) : r.id = i := by
  cases net with
  | exn => cases h
  | resp status doc =>
    simp only [fetch_one] at h
    by_cases h4 : status = 404
    · rw [if_pos h4] at h; cases h
    · rw [if_neg h4] at h
      by_cases h2 : status = 200
      · rw [if_neg (by simpa using h2)] at h
        cases hr : doc.row with
        | none => simp only [hr] at h; cases h
        | some row =>
          simp only [hr] at h
          cases he : extractRecord i
              (match doc.codeDiv with | some c => htmlUnescape c | none => "")
              doc row with
          | error e => simp only [he] at h; cases h
          | ok rec =>
            simp only [he] at h
            injection h with h
            subst h
            exact extract_id _ _ _ _ _ he
      · rw [if_pos (by simpa using h2)] at h; cases h

theorem foldl_collect (env : Int → HttpResult) (order : List Int) :
    ∀ acc : List ParsedRecord × List Int,
      order.foldl (collectStep env) acc
        = (acc.1 ++ order.filterMap (fun j => foundRecord (fetch_one j (env j))),
           acc.2 ++ order.filter (fun j => isNotFound (fetch_one j (env j)))) := by
  induction order with
  | nil => intro acc; simp
  | cons j rest ih =>
    intro acc
    rw [List.foldl_cons, ih (collectStep env acc j)]
    cases hj : fetch_one j (env j) with
    | Found r =>
      simp [collectStep, hj, foundRecord, isNotFound, List.filterMap_cons, List.filter_cons]
    | NotFound =>
      simp [collectStep, hj, foundRecord, isNotFound, List.filterMap_cons, List.filter_cons]
    | Dropped =>
      simp [collectStep, hj, foundRecord, isNotFound, List.filterMap_cons, List.filter_cons]

theorem processBatch_eq (env : Int → HttpResult) (order : List Int) :
    processBatch env order
      = (order.filterMap (fun j => foundRecord (fetch_one j (env j))),
         order.filter (fun j => isNotFound (fetch_one j (env j)))) := by
  simpa [processBatch] using foldl_collect env order ([], [])

theorem foundRecord_found (r : ParsedRecord) :
    foundRecord (FetchOutcome.Found r) = some r := rfl

theorem foundRecord_notfound : foundRecord FetchOutcome.NotFound = none := rfl

theorem foundRecord_dropped : foundRecord FetchOutcome.Dropped = none := rfl

theorem isFound_found (r : ParsedRecord) :
    isFound (FetchOutcome.Found r) = true := rfl

theorem isFound_notfound : isFound FetchOutcome.NotFound = false := rfl

theorem isFound_dropped : isFound FetchOutcome.Dropped = false := rfl

theorem map_id_filterMap (env : Int → HttpResult) (order : List Int) :
    (order.filterMap (fun j => foundRecord (fetch_one j (env j)))).map ParsedRecord.id
      = order.filter (fun j => isFound (fetch_one j (env j))) := by
  induction order with
  | nil => rfl
  | cons j rest ih =>
    cases hj : fetch_one j (env j) with
    | Found r =>
      have hid : r.id = j := record_id j (env j) r hj
      simp only [List.filterMap_cons, List.filter_cons, hj, foundRecord_found,
        isFound_found]
      simp [hid, ih]
    | NotFound =>
      simp only [List.filterMap_cons, List.filter_cons, hj, foundRecord_notfound,
        isFound_notfound]
      simp [ih]
    | Dropped =>
      simp only [List.filterMap_cons, List.filter_cons, hj, foundRecord_dropped,
        isFound_dropped]
      simp [ih]

theorem filter_three_perm {α : Type} (p q w : α → Bool) (l : List α)
    (hex : ∀ a, (p a = true ∧ q a = false ∧ w a = false)
      ∨ (p a = false ∧ q a = true ∧ w a = false)
      ∨ (p a = false ∧ q a = false ∧ w a = true)) :
    (l.filter p ++ l.filter q ++ l.filter w).Perm l := by
  induction l with
  | nil => simp
  | cons a rest ih =>
    rcases hex a with ⟨hp, hq, hw⟩ | ⟨hp, hq, hw⟩ | ⟨hp, hq, hw⟩
    · simp only [List.filter_cons, hp, hq, hw, if_pos, if_neg, Bool.false_eq_true,
        ite_false, ite_true, List.cons_append]
      exact ih.cons a
    · simp only [List.filter_cons, hp, hq, hw, Bool.false_eq_true, ite_false, ite_true]
      have hmid : (rest.filter p ++ a :: rest.filter q ++ rest.filter w)
          = rest.filter p ++ a :: (rest.filter q ++ rest.filter w) := by
        simp [List.append_assoc]
      rw [hmid]
      exact List.perm_middle.trans
        ((by simpa [List.append_assoc] using ih : (rest.filter p
          ++ (rest.filter q ++ rest.filter w)).Perm rest).cons a)
    · simp only [List.filter_cons, hp, hq, hw, Bool.false_eq_true, ite_false, ite_true]
      exact List.perm_middle.trans (ih.cons a)

/-- C1: collecting a batch in any completion order partitions it
exactly: the ids of the surfaced records, the not-found ids, and the
dropped ids together are a permutation of the batch (no outcome
duplicated or lost), and an id lands in each piece exactly according to
its fetch outcome. -/
theorem batch_partition_exact (env : Int → HttpResult) (ids order : List Int)
    (i : Int) (h : order.Perm ids) :
    ((processBatch env order).1.map ParsedRecord.id ++ (processBatch env order).2
      ++ order.filter (fun j => isDropped (fetch_one j (env j)))).Perm ids
    ∧ (i ∈ (processBatch env order).1.map ParsedRecord.id
        ↔ i ∈ ids ∧ ∃ r, fetch_one i (env i) = FetchOutcome.Found r)
    ∧ (i ∈ (processBatch env order).2
        ↔ i ∈ ids ∧ fetch_one i (env i) = FetchOutcome.NotFound)
    ∧ (i ∈ order.filter (fun j => isDropped (fetch_one j (env j)))
        ↔ i ∈ ids ∧ fetch_one i (env i) = FetchOutcome.Dropped) := by
  rw [processBatch_eq env order]
  simp only [map_id_filterMap env order]
  refine ⟨?_, ?_, ?_, ?_⟩
  · exact (filter_three_perm _ _ _ order
      (fun j => outcome_trichotomy (fetch_one j (env j)))).trans h
  · rw [List.mem_filter]
    rw [h.mem_iff]
    exact and_congr Iff.rfl (isFound_eq_true_iff _)
  · rw [List.mem_filter]
    rw [h.mem_iff]
    exact and_congr Iff.rfl (isNotFound_eq_true_iff _)
  · rw [List.mem_filter]
    rw [h.mem_iff]
    exact and_congr Iff.rfl (isDropped_eq_true_iff _)

/-- Witness for C1: batch `[1, 2]` collected in completion order
`[2, 1]` under all-exception fetches. -/
theorem batch_partition_exact_witness :
    ([2, 1] : List Int).Perm [1, 2]
    ∧ (((processBatch exnEnv [2, 1]).1.map ParsedRecord.id
          ++ (processBatch exnEnv [2, 1]).2
          ++ List.filter (fun j => isDropped (fetch_one j (exnEnv j))) [2, 1]).Perm [1, 2]
        ∧ ((1 : Int) ∈ (processBatch exnEnv [2, 1]).1.map ParsedRecord.id
            ↔ (1 : Int) ∈ [1, 2]
              ∧ ∃ r, fetch_one 1 (exnEnv 1) = FetchOutcome.Found r)
        ∧ ((1 : Int) ∈ (processBatch exnEnv [2, 1]).2
            ↔ (1 : Int) ∈ [1, 2]
              ∧ fetch_one 1 (exnEnv 1) = FetchOutcome.NotFound)
        ∧ ((1 : Int) ∈ List.filter (fun j => isDropped (fetch_one j (exnEnv j))) [2, 1]
            ↔ (1 : Int) ∈ [1, 2]
              ∧ fetch_one 1 (exnEnv 1) = FetchOutcome.Dropped)) :=
  ⟨by decide, batch_partition_exact exnEnv [1, 2] [2, 1] 1 (by decide)⟩

end Worker
